import Mathlib

/-!
Verification of the background-job subsystem of callable-api
(src/internal/background/manager.go and job.go).

Modelling conventions:
* Timestamps are abstract integers (Go time.Time instants); durations are
  integers. Go computes `threshold := now.Add(-olderThan)` which is `now - d`.
* The Go zero value of time.Time on CompletionTime / EstimatedCompletion is
  modelled as `none`; a set timestamp is `some t`.
* The opaque `any` result is modelled as `Option String` (`nil` = `none`).
* Errors returned by a unit of work are modelled by their message string.
* Every mutation of a JobStatus record in the source happens under the
  manager lock, so a job record evolves by a sequence of atomic writes;
  each lock-protected write block of StartJob becomes one function below,
  and an execution of the supervisor is a list of such write events.
-/

namespace Background

/-- JobStatus record, manager.go lines 13-22. -/
structure JobStatus where
  id : String
  state : String
  progress : Int
  startTime : Int
  completionTime : Option Int
  estimatedCompletion : Option Int
  error : String
  result : Option String
  deriving Repr, DecidableEq

/-- Initial record written by StartJob, manager.go lines 42-51. -/
def initStatus (jobID : String) (now : Int) : JobStatus :=
  { id := jobID
    state := "pending"
    progress := 0
    startTime := now
    completionTime := none
    estimatedCompletion := none
    error := ""
    result := none }

/-- The write at manager.go lines 75-77: the supervising goroutine marks the
job as processing before launching the unit of work. -/
def setProcessing (s : JobStatus) : JobStatus :=
  { s with state := "processing" }

/-- The progress-reporting callback, manager.go lines 84-111. Field order
follows the source: progress is stored unconditionally, then
estimatedCompletion when non-nil, then result when non-nil; receiving a
non-nil result while the state is processing and the reported progress is
at least 100 transitions the record to completed and stamps the time. -/
def updateStatus (progress : Int) (estimatedCompletion : Option Int)
    (result : Option String) (now : Int) (s : JobStatus) : JobStatus :=
  let s1 := { s with progress := progress }
  let s2 := match estimatedCompletion with
    | some ec => { s1 with estimatedCompletion := some ec }
    | none => s1
  match result with
  | some r =>
    let s3 := { s2 with result := some r }
    if s3.state = "processing" ∧ 100 ≤ progress then
      { s3 with state := "completed", completionTime := some now }
    else s3
  | none => s2

/-- The write performed by the inner goroutine when the unit of work returns,
manager.go lines 119-140: a non-nil error forces failed; otherwise any state
other than completed is forced to completed with progress 100. -/
def jobDoneWrite (err : Option String) (now : Int) (s : JobStatus) : JobStatus :=
  match err with
  | some msg =>
    { s with state := "failed", error := msg, completionTime := some now }
  | none =>
    if s.state ≠ "completed" then
      { s with state := "completed", progress := 100, completionTime := some now }
    else s

/-- The timeout branch of the select, manager.go lines 151-162: fires when the
deadline context expires before the done channel closes, and writes only when
the record is still processing. -/
def timeoutWrite (now : Int) (s : JobStatus) : JobStatus :=
  if s.state = "processing" then
    { s with
      state := "failed"
      error := "Job timeout: excedeu o tempo máximo permitido"
      completionTime := some now }
  else s

/-- stringify, manager.go lines 217-222, restricted to the payloads we model:
nil prints as "nil", a string payload prints as itself. -/
def stringify (v : Option String) : String :=
  match v with
  | none => "nil"
  | some s => s

/-- The deferred recover block of the outer supervising goroutine,
manager.go lines 59-73: when a panic is recovered on that goroutine it writes
failed with a message built from the payload. -/
def recoverWrite (payload : Option String) (now : Int) (s : JobStatus) : JobStatus :=
  { s with
    state := "failed"
    error := "Panic in background job: " ++ stringify payload
    completionTime := some now }

/-- One atomic lock-protected write of the supervisor to a job record. -/
inductive Event where
  | setProcessing
  | update (progress : Int) (estimatedCompletion : Option Int)
      (result : Option String) (now : Int)
  | done (err : Option String) (now : Int)
  | timeout (now : Int)
  | recoverPanic (payload : Option String) (now : Int)
  deriving Repr, DecidableEq

def applyEvent (s : JobStatus) (e : Event) : JobStatus :=
  match e with
  | .setProcessing => setProcessing s
  | .update p ec r now => updateStatus p ec r now s
  | .done err now => jobDoneWrite err now s
  | .timeout now => timeoutWrite now s
  | .recoverPanic payload now => recoverWrite payload now s

/-- The record after a sequence of supervisor writes. -/
def run (s : JobStatus) (es : List Event) : JobStatus :=
  es.foldl applyEvent s

/-- True of the callback events. -/
def isUpdate (e : Event) : Bool :=
  match e with
  | .update _ _ _ _ => true
  | _ => false

/-- A callback event that triggers the early-completion branch of
updateStatus: progress at least 100 together with a non-nil result. -/
def earlyCompletes (e : Event) : Bool :=
  match e with
  | .update p _ r _ => 100 ≤ p ∧ r.isSome
  | _ => false

def isTerminalState (st : String) : Bool :=
  st = "completed" || st = "failed"

/-! ## The inner goroutine and panic containment

The unit of work is invoked by the inner goroutine launched at manager.go
lines 116-143 (`go func() { err := job(ctx, updateStatus); ... }()`).
That goroutine declares no deferred recover of its own. By Go semantics a
recover only stops a panic raised on the stack of the goroutine that deferred
it, so the deferred recover at lines 59-73 — which belongs to the outer
supervising goroutine — cannot intercept a panic raised inside the unit of
work: the inner goroutine unwinds with no recover, the done-write at lines
119-140 is skipped, and the Go runtime terminates the whole process.
(In the earlier revision of this file the unit of work ran on the same
goroutine as the recover, which did contain the panic.) -/

/-- How one execution of the unit of work ends: it returns an error value
(possibly nil), or it panics with some payload. -/
inductive JobOutcome where
  | ret (err : Option String)
  | panics (payload : Option String)
  deriving Repr, DecidableEq

/-- Result of the inner goroutine of manager.go lines 116-143: either it
performed the done-write normally, or an unrecovered panic escaped it,
leaving the record untouched and terminating the process. -/
inductive InnerResult where
  | normal (s : JobStatus)
  | processCrash (payload : Option String) (s : JobStatus)
  deriving Repr, DecidableEq

/-- The inner goroutine body, manager.go lines 116-143: call the unit of
work, then perform the done-write. There is no deferred recover in this
goroutine, so a panic skips the done-write and crashes the process. -/
def innerGoroutine (outcome : JobOutcome) (now : Int) (s : JobStatus) :
    InnerResult :=
  match outcome with
  | .ret err => .normal (jobDoneWrite err now s)
  | .panics payload => .processCrash payload s

/-! ## Heap-level model of the manager (for snapshot independence)

The Go manager stores pointers: `jobs map[string]*JobStatus`. GetJobStatus
(manager.go lines 168-190) copies the record (`statusCopy := *status`) and
returns a pointer to the fresh copy, never the internal pointer. We model
the Go heap as a list of JobStatus records addressed by index, and the
registry as an association list from job id to address. Every supervisor
write mutates the record through the address stored in the registry. -/

structure ManagerState where
  heap : List JobStatus
  jobs : List (String × Nat)
  deriving Repr, DecidableEq

/-- Every address stored in the registry points into the heap. -/
def ManagerState.WF (m : ManagerState) : Prop :=
  ∀ id loc, m.jobs.lookup id = some loc → loc < m.heap.length

/-- GetJobStatus, manager.go lines 168-190: look the pointer up, copy the
record it points to into fresh storage, and hand the caller the fresh
address together with the copied value; an absent id is an error
("job não encontrado"), modelled as none. -/
def getJobStatus (m : ManagerState) (jobID : String) :
    Option (Nat × JobStatus) × ManagerState :=
  match m.jobs.lookup jobID with
  | none => (none, m)
  | some loc =>
    match m.heap[loc]? with
    | none => (none, m)
    | some rec => (some (m.heap.length, rec), { m with heap := m.heap ++ [rec] })

/-- One supervisor write applied through the registry: the record at the
address registered for jobID is mutated in place. -/
def mutateJob (m : ManagerState) (jobID : String) (e : Event) : ManagerState :=
  match m.jobs.lookup jobID with
  | none => m
  | some loc =>
    match m.heap[loc]? with
    | none => m
    | some rec => { m with heap := m.heap.set loc (applyEvent rec e) }

/-- A sequence of supervisor writes, each through the registry. -/
def mutateAll (m : ManagerState) (ops : List (String × Event)) : ManagerState :=
  ops.foldl (fun st pe => mutateJob st pe.1 pe.2) m

/-! ## Cleanup (sweep) -/

/-- CleanupCompletedJobs, manager.go lines 193-214: with
threshold = now - olderThan, remove every record whose state is completed or
failed and whose startTime is strictly before the threshold. The Go function
mutates the map and returns nothing; the caller observes only the registry. -/
def cleanupCompletedJobs (now olderThan : Int)
    (jobs : List (String × JobStatus)) : List (String × JobStatus) :=
  jobs.filter (fun p =>
    !(isTerminalState p.2.state && decide (p.2.startTime < now - olderThan)))

/-- The count CleanupCompletedJobs accumulates at manager.go lines 195-205;
it is only logged (lines 208-213), never returned. -/
def cleanupRemovedCount (now olderThan : Int)
    (jobs : List (String × JobStatus)) : Nat :=
  (jobs.filter (fun p =>
    isTerminalState p.2.state && decide (p.2.startTime < now - olderThan))).length

/-! ## Helper lemmas about supervisor traces -/

/-- Every event except the initial transition to processing. Once StartJob
has performed the write at lines 75-77, all further writes to the record are
of these kinds. -/
def isPost (e : Event) : Bool :=
  match e with
  | .setProcessing => false
  | _ => true

/-- A callback event whose reported progress lies in the range 0..100. -/
def updateInRange (e : Event) : Bool :=
  match e with
  | .update p _ _ _ => 0 ≤ p && p ≤ 100
  | _ => true

theorem run_append (s : JobStatus) (es fs : List Event) :
    run s (es ++ fs) = run (run s es) fs := by
  simp [run, List.foldl_append]

theorem run_cons (s : JobStatus) (e : Event) (es : List Event) :
    run s (e :: es) = run (applyEvent s e) es := rfl

theorem run_nil (s : JobStatus) : run s [] = s := rfl

/-- A callback write on a processing record that does not take the
early-completion branch keeps the record processing and leaves
completionTime, error and startTime untouched. -/
theorem updateStatus_keeps_processing (s : JobStatus) (p : Int)
    (ec : Option Int) (r : Option String) (t : Int)
    (hproc : s.state = "processing")
    (hne : ¬(100 ≤ p ∧ r.isSome = true)) :
    (updateStatus p ec r t s).state = "processing" ∧
    (updateStatus p ec r t s).completionTime = s.completionTime := by
  cases r with
  | none =>
    cases ec <;> simp [updateStatus, hproc]
  | some rv =>
    have hp : ¬(100 ≤ p) := by
      intro h
      exact hne ⟨h, by simp⟩
    cases ec <;> simp [updateStatus, hproc, hp]

/-- Folding callback writes, none of which early-completes, over a
processing record keeps it processing with completionTime unchanged. -/
theorem updates_keep_processing (us : List Event) (s : JobStatus)
    (hus : us.all (fun e => isUpdate e && !earlyCompletes e) = true)
    (hproc : s.state = "processing") :
    (run s us).state = "processing" ∧
    (run s us).completionTime = s.completionTime := by
  induction us generalizing s with
  | nil => exact ⟨hproc, rfl⟩
  | cons e us ih =>
    simp only [List.all_cons, Bool.and_eq_true] at hus
    obtain ⟨⟨heu, hee⟩, hrest⟩ := hus
    cases e with
    | update p ec r t =>
      have hee2 : p < 100 ∨ r = none := by
        simpa [earlyCompletes, decide_eq_true_eq] using hee
      have hne : ¬(100 ≤ p ∧ r.isSome = true) := by
        rintro ⟨hp, hr⟩
        rcases hee2 with h | h
        · omega
        · subst h; simp at hr
      have h1 := updateStatus_keeps_processing s p ec r t hproc hne
      rw [run_cons]
      have h2 := ih (applyEvent s (.update p ec r t))
        hrest (by simpa [applyEvent] using h1.1)
      refine ⟨h2.1, ?_⟩
      rw [h2.2]
      simpa [applyEvent] using h1.2
    | setProcessing => simp [isUpdate] at heu
    | done err t => simp [isUpdate] at heu
    | timeout t => simp [isUpdate] at heu
    | recoverPanic payload t => simp [isUpdate] at heu

/-- Folding callback writes over a record that is either processing (with no
completion stamp) or completed (with a completion stamp) leaves it in one of
those two shapes: the only state change a callback can make is the
early-completion transition, which also stamps the time. -/
theorem updates_state_shape (us : List Event) (s : JobStatus)
    (hus : us.all isUpdate = true)
    (h : s.state = "processing" ∨
      (s.state = "completed" ∧ (s.completionTime).isSome = true)) :
    (run s us).state = "processing" ∨
      ((run s us).state = "completed" ∧
        ((run s us).completionTime).isSome = true) := by
  induction us generalizing s with
  | nil => exact h
  | cons e us ih =>
    simp only [List.all_cons, Bool.and_eq_true] at hus
    obtain ⟨heu, hrest⟩ := hus
    cases e with
    | update p ec r t =>
      rw [run_cons]
      apply ih _ hrest
      rcases h with hproc | ⟨hdone, hstamp⟩
      · by_cases hec : 100 ≤ p ∧ r.isSome = true
        · rcases hec with ⟨hp, hr⟩
          cases r with
          | none => simp at hr
          | some rv =>
            right
            cases ec <;> simp [applyEvent, updateStatus, hproc, hp]
        · left
          exact ((updateStatus_keeps_processing s p ec r t hproc hec).1)
      · right
        have hne : s.state ≠ "processing" := by rw [hdone]; decide
        cases r with
        | none =>
          cases ec <;> simp [applyEvent, updateStatus, hdone, hstamp]
        | some rv =>
          cases ec <;> simp [applyEvent, updateStatus, hdone, hstamp]
    | setProcessing => simp [isUpdate] at heu
    | done err t => simp [isUpdate] at heu
    | timeout t => simp [isUpdate] at heu
    | recoverPanic payload t => simp [isUpdate] at heu

/-- Each post-initialization write preserves the invariant that a processing
record carries no completion stamp. -/
theorem applyEvent_processing_inv (s : JobStatus) (e : Event)
    (he : isPost e = true)
    (hinv : s.state = "processing" → s.completionTime = none) :
    (applyEvent s e).state = "processing" →
      (applyEvent s e).completionTime = none := by
  cases e with
  | setProcessing => simp [isPost] at he
  | update p ec r t =>
    by_cases hproc : s.state = "processing"
    · by_cases hec : 100 ≤ p ∧ r.isSome = true
      · rcases hec with ⟨hp, hr⟩
        cases r with
        | none => simp at hr
        | some rv =>
          cases ec <;> simp [applyEvent, updateStatus, hproc, hp]
      · intro _
        have := (updateStatus_keeps_processing s p ec r t hproc hec).2
        simp only [applyEvent] at this ⊢
        rw [this]
        exact hinv hproc
    · cases r with
      | none =>
        cases ec <;> intro hst <;>
          simp_all [applyEvent, updateStatus]
      | some rv =>
        by_cases hp : 100 ≤ p
        · cases ec <;> intro hst <;> simp_all [applyEvent, updateStatus]
        · cases ec <;> intro hst <;> simp_all [applyEvent, updateStatus]
  | done err t =>
    cases err with
    | none =>
      by_cases hc : s.state = "completed"
      · intro hst
        simp [applyEvent, jobDoneWrite, hc] at hst
      · intro hst
        simp [applyEvent, jobDoneWrite, hc] at hst
    | some msg => intro hst; simp [applyEvent, jobDoneWrite] at hst
  | timeout t =>
    by_cases hproc : s.state = "processing"
    · intro hst
      simp [applyEvent, timeoutWrite, hproc] at hst
    · intro hst
      simp only [applyEvent, timeoutWrite, hproc, if_neg hproc] at hst ⊢
      exact hinv hst
  | recoverPanic payload t =>
    intro hst
    simp [applyEvent, recoverWrite] at hst

/-- Over any sequence of post-initialization writes, a processing record
never carries a completion stamp. -/
theorem run_processing_inv (es : List Event) (s : JobStatus)
    (hpost : es.all isPost = true)
    (hinv : s.state = "processing" → s.completionTime = none) :
    (run s es).state = "processing" → (run s es).completionTime = none := by
  induction es generalizing s with
  | nil => exact hinv
  | cons e es ih =>
    simp only [List.all_cons, Bool.and_eq_true] at hpost
    rw [run_cons]
    exact ih _ hpost.2 (applyEvent_processing_inv s e hpost.1 hinv)

/-- A supervisor write through the registry never changes the registry map
itself and never changes the heap at any address outside the registry. -/
theorem mutateJob_frame (st : ManagerState) (jobID : String) (e : Event)
    (snapLoc : Nat)
    (h : ∀ id loc, st.jobs.lookup id = some loc → loc ≠ snapLoc) :
    (mutateJob st jobID e).jobs = st.jobs ∧
    (mutateJob st jobID e).heap[snapLoc]? = st.heap[snapLoc]? := by
  cases hl : st.jobs.lookup jobID with
  | none => simp [mutateJob, hl]
  | some loc =>
    cases hg : st.heap[loc]? with
    | none => simp [mutateJob, hl, hg]
    | some rec =>
      refine ⟨by simp [mutateJob, hl, hg], ?_⟩
      simp only [mutateJob, hl, hg]
      exact List.getElem?_set_ne (h jobID loc hl)

/-- Frame property for a whole sequence of supervisor writes. -/
theorem mutateAll_frame (ops : List (String × Event)) (st : ManagerState)
    (snapLoc : Nat)
    (h : ∀ id loc, st.jobs.lookup id = some loc → loc ≠ snapLoc) :
    (mutateAll st ops).heap[snapLoc]? = st.heap[snapLoc]? := by
  induction ops generalizing st with
  | nil => rfl
  | cons op ops ih =>
    have hf := mutateJob_frame st op.1 op.2 snapLoc h
    have : mutateAll st (op :: ops) = mutateAll (mutateJob st op.1 op.2) ops := rfl
    rw [this, ih (mutateJob st op.1 op.2) (by rw [hf.1]; exact h), hf.2]

/-- Keeping the complement of a Boolean test partitions a list. -/
theorem filter_not_partition (l : List (String × JobStatus))
    (f : (String × JobStatus) → Bool) :
    (l.filter (fun x => !(f x))).length + (l.filter f).length = l.length := by
  induction l with
  | nil => rfl
  | cons x xs ih =>
    cases hf : f x with
    | true =>
      simp [List.filter_cons, hf]
      omega
    | false =>
      simp [List.filter_cons, hf]
      omega

/-- The two complementary filters of the sweep partition the registry. -/
theorem cleanup_partition (now d : Int) (jobs : List (String × JobStatus)) :
    (cleanupCompletedJobs now d jobs).length + cleanupRemovedCount now d jobs =
      jobs.length :=
  filter_not_partition jobs
    (fun p => isTerminalState p.2.state && decide (p.2.startTime < now - d))

/-! ## Claim theorems -/

/-- C1: the claim states that a panic of the unit of work is caught at the
supervision boundary, the record ends failed with the fault description in
error and completionTime set, and the process does not crash. The code FAILS
this: the unit of work runs on the inner goroutine of manager.go lines
116-143, which has no deferred recover; the recover at lines 59-73 belongs to
the outer goroutine and by Go semantics cannot intercept a panic raised on a
different goroutine. Evaluating the model at a job that panics with payload
"boom": the inner goroutine ends in a process crash, the record is left in
the non-terminal state processing with no error and no completion stamp,
while the recover-write that the code intended (lines 60-65) would have
produced exactly the record the claim describes. -/
theorem panicking_job_crashes_process :
    innerGoroutine (JobOutcome.panics (some "boom")) 5
        (setProcessing (initStatus "job-1" 0)) =
      InnerResult.processCrash (some "boom")
        (setProcessing (initStatus "job-1" 0)) ∧
    (setProcessing (initStatus "job-1" 0)).state = "processing" ∧
    ¬((setProcessing (initStatus "job-1" 0)).state = "failed") ∧
    (setProcessing (initStatus "job-1" 0)).completionTime = none ∧
    (setProcessing (initStatus "job-1" 0)).error = "" ∧
    (recoverWrite (some "boom") 5
        (setProcessing (initStatus "job-1" 0))).state = "failed" ∧
    (recoverWrite (some "boom") 5
        (setProcessing (initStatus "job-1" 0))).error =
      "Panic in background job: boom" := by
  decide

/-- C2: the claim states that no operation of the Job Runner leaves a
terminal state. The code FAILS this: after the timeout write has put the
record in the terminal state failed, the done-write of a unit of work that
returns nil late (lines 129-134 guard only against state completed)
overwrites it to completed; dually, a unit of work that returns a non-nil
error after a 100-percent progress report already completed the record
overwrites completed to failed. -/
theorem terminal_state_overwritten_by_done_write :
    (run (initStatus "job-2" 0)
        [Event.setProcessing, Event.timeout 5]).state = "failed" ∧
    (run (initStatus "job-2" 0)
        [Event.setProcessing, Event.timeout 5, Event.done none 8]).state =
      "completed" ∧
    (run (initStatus "job-3" 0)
        [Event.setProcessing,
          Event.update 100 none (some "res") 2]).state = "completed" ∧
    (run (initStatus "job-3" 0)
        [Event.setProcessing, Event.update 100 none (some "res") 2,
          Event.done (some "late failure") 3]).state = "failed" := by
  decide

/-- C3, counterexample: the claim states that once the record is terminal,
every further progress callback is a no-op on all fields. After the timeout
write has made the record failed (manager.go lines 151-162), a callback
invocation still overwrites the progress field (line 89 is unconditional),
here from 0 to 55. -/
theorem update_after_terminal_changes_progress :
    (run (initStatus "job-4" 0)
        [Event.setProcessing, Event.timeout 5]).state = "failed" ∧
    (run (initStatus "job-4" 0)
        [Event.setProcessing, Event.timeout 5]).progress = 0 ∧
    (updateStatus 55 none none 6
        (run (initStatus "job-4" 0)
          [Event.setProcessing, Event.timeout 5])).progress = 55 := by
  decide

/-- C3, amended: once the record is terminal, a progress callback never
changes the state or the completion stamp (the only state transition in
updateStatus is guarded by state processing, line 98), but it does overwrite
the progress field with the reported value. -/
theorem update_after_terminal_preserves_state_and_stamp (s : JobStatus)
    (p : Int) (ec : Option Int) (r : Option String) (t : Int)
    (h : s.state = "completed" ∨ s.state = "failed") :
    (updateStatus p ec r t s).state = s.state ∧
    (updateStatus p ec r t s).completionTime = s.completionTime ∧
    (updateStatus p ec r t s).progress = p := by
  have hs : ¬(s.state = "processing") := by
    rcases h with h | h <;> rw [h] <;> decide
  cases r with
  | none => cases ec <;> simp [updateStatus]
  | some rv => cases ec <;> simp [updateStatus, hs]

theorem update_after_terminal_preserves_state_and_stamp_witness :
    (updateStatus 55 (some 9) (some "late") 6
        (run (initStatus "job-4w" 0)
          [Event.setProcessing, Event.timeout 5])).state =
      (run (initStatus "job-4w" 0)
        [Event.setProcessing, Event.timeout 5]).state ∧
    (updateStatus 55 (some 9) (some "late") 6
        (run (initStatus "job-4w" 0)
          [Event.setProcessing, Event.timeout 5])).completionTime =
      (run (initStatus "job-4w" 0)
        [Event.setProcessing, Event.timeout 5]).completionTime ∧
    (updateStatus 55 (some 9) (some "late") 6
        (run (initStatus "job-4w" 0)
          [Event.setProcessing, Event.timeout 5])).progress = 55 :=
  update_after_terminal_preserves_state_and_stamp
    (run (initStatus "job-4w" 0) [Event.setProcessing, Event.timeout 5])
    55 (some 9) (some "late") 6 (Or.inr (by decide))

/-- C4, counterexample: the claim states that a nil-returning unit of work
always ends completed with progress exactly 100. Here the unit of work first
reports progress 100 with a result, which completes the record early, then
reports progress 50, then returns nil; the done-write skips a record already
completed (line 129), so the final record is completed with progress 50. -/
theorem completed_nil_return_progress_not_100 :
    (run (initStatus "job-5" 0)
        [Event.setProcessing, Event.update 100 none (some "res") 2,
          Event.update 50 none none 3, Event.done none 5]).state =
      "completed" ∧
    (run (initStatus "job-5" 0)
        [Event.setProcessing, Event.update 100 none (some "res") 2,
          Event.update 50 none none 3, Event.done none 5]).progress = 50 := by
  decide

/-- C4, amended: for every job whose unit of work returns nil before the
deadline, after any sequence of progress callbacks, the final state is
completed with completionTime set; moreover, whenever no callback reported
progress at least 100 together with a non-nil result (early completion), the
done-write forces progress to 100 and stamps the completion time. -/
theorem nil_return_before_deadline_completes (jobID : String) (t0 t : Int)
    (us : List Event) (hus : us.all isUpdate = true) :
    (run (initStatus jobID t0)
        (Event.setProcessing :: us ++ [Event.done none t])).state =
      "completed" ∧
    ((run (initStatus jobID t0)
        (Event.setProcessing :: us ++ [Event.done none t])).completionTime).isSome =
      true ∧
    (us.all (fun e => !earlyCompletes e) = true →
      (run (initStatus jobID t0)
          (Event.setProcessing :: us ++ [Event.done none t])).progress = 100 ∧
      (run (initStatus jobID t0)
          (Event.setProcessing :: us ++ [Event.done none t])).completionTime =
        some t) := by
  have hrw : run (initStatus jobID t0)
      (Event.setProcessing :: us ++ [Event.done none t]) =
      jobDoneWrite none t (run (setProcessing (initStatus jobID t0)) us) := by
    rw [run_append, run_cons]
    rfl
  have hshape := updates_state_shape us (setProcessing (initStatus jobID t0))
    hus (Or.inl rfl)
  refine ⟨?_, ?_, ?_⟩
  · rw [hrw]
    rcases hshape with hproc | ⟨hdone, _⟩
    · simp [jobDoneWrite, hproc]
    · simp [jobDoneWrite, hdone]
  · rw [hrw]
    rcases hshape with hproc | ⟨hdone, hstamp⟩
    · simp [jobDoneWrite, hproc]
    · simp [jobDoneWrite, hdone, hstamp]
  · intro hne
    have hboth : us.all (fun e => isUpdate e && !earlyCompletes e) = true := by
      rw [List.all_eq_true] at hus hne ⊢
      intro e he
      simp [hus e he, hne e he]
    have hkeep := updates_keep_processing us
      (setProcessing (initStatus jobID t0)) hboth rfl
    rw [hrw]
    constructor <;> simp [jobDoneWrite, hkeep.1]

theorem nil_return_before_deadline_completes_witness :
    (run (initStatus "job-5w" 0)
        (Event.setProcessing :: [Event.update 30 none none 1] ++
          [Event.done none 5])).state = "completed" ∧
    ((run (initStatus "job-5w" 0)
        (Event.setProcessing :: [Event.update 30 none none 1] ++
          [Event.done none 5])).completionTime).isSome = true ∧
    ([Event.update 30 none none 1].all (fun e => !earlyCompletes e) = true →
      (run (initStatus "job-5w" 0)
          (Event.setProcessing :: [Event.update 30 none none 1] ++
            [Event.done none 5])).progress = 100 ∧
      (run (initStatus "job-5w" 0)
          (Event.setProcessing :: [Event.update 30 none none 1] ++
            [Event.done none 5])).completionTime = some 5) :=
  nil_return_before_deadline_completes "job-5w" 0 5
    [Event.update 30 none none 1] (by decide)

/-- C5: for every job whose unit of work returns a non-nil error before the
deadline, after any sequence of progress callbacks, the final state is
failed, the error field holds exactly the returned message, and
completionTime is set: the error branch of the done-write (manager.go lines
120-128) overwrites unconditionally. -/
theorem error_return_before_deadline_fails (jobID : String) (t0 t : Int)
    (msg : String) (us : List Event) (_hus : us.all isUpdate = true) :
    (run (initStatus jobID t0)
        (Event.setProcessing :: us ++ [Event.done (some msg) t])).state =
      "failed" ∧
    (run (initStatus jobID t0)
        (Event.setProcessing :: us ++ [Event.done (some msg) t])).error =
      msg ∧
    (run (initStatus jobID t0)
        (Event.setProcessing :: us ++ [Event.done (some msg) t])).completionTime =
      some t := by
  have hrw : run (initStatus jobID t0)
      (Event.setProcessing :: us ++ [Event.done (some msg) t]) =
      jobDoneWrite (some msg) t (run (setProcessing (initStatus jobID t0)) us) := by
    rw [run_append, run_cons]
    rfl
  rw [hrw]
  simp [jobDoneWrite]

theorem error_return_before_deadline_fails_witness :
    (run (initStatus "job-5e" 0)
        (Event.setProcessing :: [Event.update 10 none none 1] ++
          [Event.done (some "boom") 7])).state = "failed" ∧
    (run (initStatus "job-5e" 0)
        (Event.setProcessing :: [Event.update 10 none none 1] ++
          [Event.done (some "boom") 7])).error = "boom" ∧
    (run (initStatus "job-5e" 0)
        (Event.setProcessing :: [Event.update 10 none none 1] ++
          [Event.done (some "boom") 7])).completionTime = some 7 :=
  error_return_before_deadline_fails "job-5e" 0 7 "boom"
    [Event.update 10 none none 1] (by decide)

/-- C6, counterexample: the claim states that whenever the unit of work
neither returns nor errors before the deadline, the deadline branch writes
failed with a timeout message. Here the unit of work reports progress 100
with a result (completing the record early) and then keeps running past the
deadline without ever returning; the timeout write is guarded by state
processing (line 152) and writes nothing, so the record stays completed with
an empty error. -/
theorem timeout_skips_early_completed_record :
    (run (initStatus "job-6" 0)
        [Event.setProcessing, Event.update 100 none (some "res") 2,
          Event.timeout 5]).state = "completed" ∧
    (run (initStatus "job-6" 0)
        [Event.setProcessing, Event.update 100 none (some "res") 2,
          Event.timeout 5]).error = "" := by
  decide

/-- C6, amended: whenever the unit of work neither returns nor errors before
the deadline and the record is still processing when the deadline fires
(that is, no callback early-completed it), the deadline branch writes failed
with the timeout message and stamps the completion time; the trace contains
no done event, so this write does not wait for the flow of the unit of work
to exit. (The state is final only as long as the unit of work never returns
afterwards; a later return overwrites it, the bug recorded for C2.) -/
theorem timeout_fails_processing_record (jobID : String) (t0 t : Int)
    (us : List Event)
    (hus : us.all (fun e => isUpdate e && !earlyCompletes e) = true) :
    (run (initStatus jobID t0)
        (Event.setProcessing :: us ++ [Event.timeout t])).state = "failed" ∧
    (run (initStatus jobID t0)
        (Event.setProcessing :: us ++ [Event.timeout t])).error =
      "Job timeout: excedeu o tempo máximo permitido" ∧
    (run (initStatus jobID t0)
        (Event.setProcessing :: us ++ [Event.timeout t])).completionTime =
      some t := by
  have hrw : run (initStatus jobID t0)
      (Event.setProcessing :: us ++ [Event.timeout t]) =
      timeoutWrite t (run (setProcessing (initStatus jobID t0)) us) := by
    rw [run_append, run_cons]
    rfl
  have hkeep := updates_keep_processing us
    (setProcessing (initStatus jobID t0)) hus rfl
  rw [hrw]
  simp [timeoutWrite, hkeep.1]

theorem timeout_fails_processing_record_witness :
    (run (initStatus "job-6w" 0)
        (Event.setProcessing :: [Event.update 40 (some 11) none 1] ++
          [Event.timeout 9])).state = "failed" ∧
    (run (initStatus "job-6w" 0)
        (Event.setProcessing :: [Event.update 40 (some 11) none 1] ++
          [Event.timeout 9])).error =
      "Job timeout: excedeu o tempo máximo permitido" ∧
    (run (initStatus "job-6w" 0)
        (Event.setProcessing :: [Event.update 40 (some 11) none 1] ++
          [Event.timeout 9])).completionTime = some 9 :=
  timeout_fails_processing_record "job-6w" 0 9
    [Event.update 40 (some 11) none 1] (by decide)

/-- C7: GetJobStatus copies the record (statusCopy at manager.go line 181)
and returns the address of the fresh copy, never the registry-internal
pointer. In the heap model: the snapshot address returned by getJobStatus is
distinct from every address reachable through the registry, and after any
sequence of supervisor writes applied through the registry the snapshot
still dereferences to the value it held when taken. -/
theorem getJobStatus_snapshot_independent (m m2 : ManagerState)
    (jobID : String) (snapLoc : Nat) (v : JobStatus)
    (ops : List (String × Event)) (hwf : m.WF)
    (hget : getJobStatus m jobID = (some (snapLoc, v), m2)) :
    (∀ id loc, m2.jobs.lookup id = some loc → loc ≠ snapLoc) ∧
    (mutateAll m2 ops).heap[snapLoc]? = some v := by
  cases hl : m.jobs.lookup jobID with
  | none => simp [getJobStatus, hl] at hget
  | some loc =>
    cases hg : m.heap[loc]? with
    | none => simp [getJobStatus, hl, hg] at hget
    | some rec =>
      simp only [getJobStatus, hl, hg, Prod.mk.injEq, Option.some.injEq] at hget
      obtain ⟨⟨hsnap, hv⟩, hm2⟩ := hget
      have hjobs : m2.jobs = m.jobs := by rw [← hm2]
      have hfresh : ∀ id loc2, m2.jobs.lookup id = some loc2 → loc2 ≠ snapLoc := by
        intro id loc2 hlk
        rw [hjobs] at hlk
        have := hwf id loc2 hlk
        omega
      refine ⟨hfresh, ?_⟩
      rw [mutateAll_frame ops m2 snapLoc hfresh, ← hm2]
      simp only
      rw [← hsnap, ← hv]
      exact List.getElem?_concat_length m.heap rec

theorem getJobStatus_snapshot_independent_witness :
    (mutateAll
        { heap := [initStatus "j" 0, initStatus "j" 0], jobs := [("j", 0)] }
        [("j", Event.timeout 5)]).heap[1]? = some (initStatus "j" 0) := by
  have hwf : ManagerState.WF { heap := [initStatus "j" 0], jobs := [("j", 0)] } := by
    intro id loc h
    simp only [List.lookup] at h
    cases hid : (id == "j") with
    | true =>
      rw [hid] at h
      simp at h
      simp [← h]
    | false =>
      rw [hid] at h
      simp at h
  exact (getJobStatus_snapshot_independent
    { heap := [initStatus "j" 0], jobs := [("j", 0)] }
    { heap := [initStatus "j" 0, initStatus "j" 0], jobs := [("j", 0)] }
    "j" 1 (initStatus "j" 0) [("j", Event.timeout 5)] hwf (by decide)).2

/-- C8, counterexample: the claim states that the count of removed records is
returned to the caller. CleanupCompletedJobs returns nothing (manager.go line
193 declares no return value); the caller observes only the resulting
registry. Two registries with different removal counts (one versus zero)
produce identical results of the call, so the count is not returned: sweeping
a registry holding one stale completed job yields the same output as sweeping
an empty registry. -/
theorem cleanup_count_not_returned_to_caller :
    cleanupCompletedJobs 100 10
        [("old", run (initStatus "old" 0)
            [Event.setProcessing, Event.done none 1])] =
      cleanupCompletedJobs 100 10 [] ∧
    cleanupRemovedCount 100 10
        [("old", run (initStatus "old" 0)
            [Event.setProcessing, Event.done none 1])] = 1 ∧
    cleanupRemovedCount 100 10 [] = 0 := by
  decide

/-- C8, amended: the sweep removes exactly the records whose state is
terminal and whose startTime is strictly before now - olderThan, keeps every
other record unchanged, and the removed count is computed (it partitions the
registry with the kept records) but only logged, not returned to the
caller. -/
theorem cleanup_removes_exactly_old_terminal (now d : Int)
    (jobs : List (String × JobStatus)) (p : String × JobStatus) :
    (p ∈ cleanupCompletedJobs now d jobs ↔
      p ∈ jobs ∧ ¬(isTerminalState p.2.state = true ∧
        p.2.startTime < now - d)) ∧
    (cleanupCompletedJobs now d jobs).length + cleanupRemovedCount now d jobs =
      jobs.length := by
  refine ⟨?_, cleanup_partition now d jobs⟩
  simp only [cleanupCompletedJobs, List.mem_filter, Bool.and_eq_true,
    decide_eq_true_eq, not_and, Bool.not_eq_true', Bool.and_eq_false_iff,
    Bool.decide_eq_false]
  constructor
  · rintro ⟨hmem, hcond⟩
    refine ⟨hmem, fun hterm hold => ?_⟩
    rcases hcond with h | h
    · exact absurd hterm (by simp [h])
    · rw [decide_eq_false_iff_not] at h
      exact h hold
  · rintro ⟨hmem, hcond⟩
    refine ⟨hmem, ?_⟩
    cases hterm : isTerminalState p.2.state with
    | false => exact Or.inl rfl
    | true =>
      right
      rw [decide_eq_false_iff_not]
      exact hcond hterm

/-- C9, counterexample: the claim states that progress always lies in
0..100. The callback stores the reported value verbatim (manager.go line 89,
no clamping): a unit of work reporting 150 drives the field out of range. -/
theorem progress_can_exceed_100 :
    (run (initStatus "job-9" 0)
        [Event.setProcessing, Event.update 150 none none 3]).progress = 150 ∧
    ¬((run (initStatus "job-9" 0)
        [Event.setProcessing, Event.update 150 none none 3]).progress ≤ 100) := by
  decide

/-- Any single supervisor write keeps progress in 0..100 as long as the
callback events report values in that range: initialization writes 0, the
done-write writes 100, and every other write preserves the field. -/
theorem applyEvent_progress_range (s : JobStatus) (e : Event)
    (he : updateInRange e = true)
    (h : 0 ≤ s.progress ∧ s.progress ≤ 100) :
    0 ≤ (applyEvent s e).progress ∧ (applyEvent s e).progress ≤ 100 := by
  cases e with
  | setProcessing => simpa [applyEvent, setProcessing] using h
  | update p ec r t =>
    have hp : 0 ≤ p ∧ p ≤ 100 := by
      simpa [updateInRange, Bool.and_eq_true, decide_eq_true_eq] using he
    cases r with
    | none => cases ec <;> simpa [applyEvent, updateStatus] using hp
    | some rv =>
      cases ec <;> by_cases hc : s.state = "processing" ∧ 100 ≤ p <;>
        simp [applyEvent, updateStatus] <;> split <;> simpa using hp
  | done err t =>
    cases err with
    | some msg => simpa [applyEvent, jobDoneWrite] using h
    | none =>
      by_cases hc : s.state = "completed"
      · simpa [applyEvent, jobDoneWrite, hc] using h
      · simp [applyEvent, jobDoneWrite, hc]
  | timeout t =>
    by_cases hc : s.state = "processing" <;>
      simpa [applyEvent, timeoutWrite, hc] using h
  | recoverPanic payload t => simpa [applyEvent, recoverWrite] using h

theorem run_progress_range (es : List Event) (s : JobStatus)
    (hes : es.all updateInRange = true)
    (h : 0 ≤ s.progress ∧ s.progress ≤ 100) :
    0 ≤ (run s es).progress ∧ (run s es).progress ≤ 100 := by
  induction es generalizing s with
  | nil => exact h
  | cons e es ih =>
    simp only [List.all_cons, Bool.and_eq_true] at hes
    rw [run_cons]
    exact ih _ hes.2 (applyEvent_progress_range s e hes.1 h)

/-- C9, amended: the progress field stays in 0..100 at every point of the
lifetime of a record provided every value the unit of work passes to the
callback lies in 0..100; no clamping is applied, so out-of-range reports are
stored verbatim (see the counterexample). -/
theorem progress_in_range_when_reports_in_range (jobID : String) (t0 : Int)
    (es : List Event) (hes : es.all updateInRange = true) :
    0 ≤ (run (initStatus jobID t0) es).progress ∧
      (run (initStatus jobID t0) es).progress ≤ 100 :=
  run_progress_range es (initStatus jobID t0) hes (by simp [initStatus])

theorem progress_in_range_when_reports_in_range_witness :
    0 ≤ (run (initStatus "job-9w" 0)
        [Event.setProcessing, Event.update 50 none none 1]).progress ∧
      (run (initStatus "job-9w" 0)
        [Event.setProcessing, Event.update 50 none none 1]).progress ≤ 100 :=
  progress_in_range_when_reports_in_range "job-9w" 0
    [Event.setProcessing, Event.update 50 none none 1] (by decide)

/-- C10: when the callback is invoked with a non-nil result on a record that
is processing after any sequence of post-initialization writes: a reported
progress of at least 100 completes the record and stamps the completion time
at that moment; a reported progress below 100 stores the result while the
state stays processing and the completion stamp stays unset. -/
theorem result_while_processing (jobID : String) (t0 t p : Int)
    (ec : Option Int) (rv : String) (es : List Event)
    (hpost : es.all isPost = true)
    (hproc : (run (initStatus jobID t0)
        (Event.setProcessing :: es)).state = "processing") :
    (100 ≤ p →
      (updateStatus p ec (some rv) t
          (run (initStatus jobID t0) (Event.setProcessing :: es))).state =
        "completed" ∧
      (updateStatus p ec (some rv) t
          (run (initStatus jobID t0)
            (Event.setProcessing :: es))).completionTime = some t) ∧
    (p < 100 →
      (updateStatus p ec (some rv) t
          (run (initStatus jobID t0) (Event.setProcessing :: es))).result =
        some rv ∧
      (updateStatus p ec (some rv) t
          (run (initStatus jobID t0) (Event.setProcessing :: es))).state =
        "processing" ∧
      (updateStatus p ec (some rv) t
          (run (initStatus jobID t0)
            (Event.setProcessing :: es))).completionTime = none) := by
  have hct : (run (initStatus jobID t0)
      (Event.setProcessing :: es)).completionTime = none := by
    rw [run_cons] at hproc ⊢
    exact run_processing_inv es (applyEvent (initStatus jobID t0)
      Event.setProcessing) hpost (fun _ => rfl) hproc
  constructor
  · intro hp
    cases ec <;> simp [updateStatus, hproc, hp]
  · intro hp
    have hp2 : ¬(100 ≤ p) := by omega
    cases ec <;> simp [updateStatus, hproc, hp2, hct]

theorem result_while_processing_witness :
    (100 ≤ (120 : Int) →
      (updateStatus 120 none (some "res") 9
          (run (initStatus "job-10w" 0) (Event.setProcessing :: []))).state =
        "completed" ∧
      (updateStatus 120 none (some "res") 9
          (run (initStatus "job-10w" 0)
            (Event.setProcessing :: []))).completionTime = some 9) ∧
    ((120 : Int) < 100 →
      (updateStatus 120 none (some "res") 9
          (run (initStatus "job-10w" 0) (Event.setProcessing :: []))).result =
        some "res" ∧
      (updateStatus 120 none (some "res") 9
          (run (initStatus "job-10w" 0) (Event.setProcessing :: []))).state =
        "processing" ∧
      (updateStatus 120 none (some "res") 9
          (run (initStatus "job-10w" 0)
            (Event.setProcessing :: []))).completionTime = none) :=
  result_while_processing "job-10w" 0 9 120 none "res" [] (by decide) (by decide)

end Background
